import Mathlib

/-!
Verification of the locomotive telemetry feature-aggregation and hybrid
anomaly-detection pipeline.

The configuration (`config.py`) and the dashboard consumer (`dashboard.py`)
are embedded directly from the source.  The core pipeline stages (feature
aggregator, rule-based scorer, robust MAD scorer, anomaly fusion, sink
serialization) are not present in the visible source tree; they are modelled
from the specification, as marked in each doc comment.

Real values are represented by `ℚ`.  A sensor standard deviation is
represented by its square (the sample variance), which keeps all arithmetic
rational while preserving every order and equality fact used here, because
squaring is strictly monotone on nonnegative reals.
-/

namespace Loco

/-- Constant from `config.py`: `CHUNK_SIZE = 1_000_000`, rows per chunk for
CSV reading. -/
def CHUNK_SIZE : ℕ := 1000000

/-- Constant from `config.py`: `AGGREGATION_INTERVAL = "1min"`, the time
interval for feature aggregation. -/
def AGGREGATION_INTERVAL : String := "1min"

/-- Duration, in seconds, denoted by the `"1min"` aggregation interval of
`config.py`. -/
def WINDOW_DURATION : ℕ := 60

/-- Table from `config.py`: `THRESHOLDS`, the named numeric bounds for the
rule-based anomaly checks. -/
def THRESHOLDS : List (String × ℚ) :=
  [("temp_motor_max", 120),
   ("temp_motor_rate_max", 5),
   ("current_std_max", 50),
   ("battery_min", 90),
   ("speed_jump_max", 20),
   ("pressure_min", 4),
   ("pressure_max", 10)]

/-- Lookup of one named bound in the `THRESHOLDS` table. -/
def threshold (name : String) : ℚ := (THRESHOLDS.lookup name).getD 0

/-- Constant from `config.py`: `MAD_THRESHOLD = 3.5`. -/
def MAD_THRESHOLD : ℚ := 3.5

/-- Constant from `config.py`: `ISOLATION_FOREST_CONTAMINATION = 0.01`. -/
def ISOLATION_FOREST_CONTAMINATION : ℚ := 0.01

/-- List from `config.py`: `ANOMALY_FEATURES`, the ordered feature columns
used for anomaly detection. -/
def ANOMALY_FEATURES : List String :=
  ["temp_motor1_1_mean",
   "temp_motor1_1_max",
   "temp_motor1_1_std",
   "current_u_mean",
   "current_u_std",
   "pressure_tr1_mean",
   "pressure_tr1_std",
   "energy_consumption",
   "avg_speed",
   "battery_volt_mean"]

/-- Names of the configured sensors whose per-window mean/max/std statistics
appear in the output schema (`<sensor>_mean/_max/_std` columns of §6). -/
def SENSORS : List String :=
  ["temp_motor1_1", "current_u", "pressure_tr1", "battery_volt", "speed"]

/-- Modelled from the spec: RawReading (§3) — one sensor sample at one
instant for one locomotive: locomotive id, timestamp (in seconds), nullable
GPS fix, and a mapping from sensor-column name to sampled value (an absent
name is a null sample). -/
structure RawReading where
  locoid : ℤ
  ts : ℕ
  latitude : Option ℚ
  longitude : Option ℚ
  sensors : List (String × ℚ)
  deriving DecidableEq

/-- Modelled from the spec: per-sensor window statistics of a FeatureVector
(§3) — mean, max and std of one configured sensor over one window.  The
`std` field is `none` exactly when the window held fewer than two samples of
the sensor: the explicit "undefined" marker.  Otherwise it carries the square
of the standard deviation (the sample variance), kept rational. -/
structure SensorStat where
  mean : ℚ
  max : ℚ
  std : Option ℚ
  deriving DecidableEq

/-- Value of sensor column `s` in one reading, `none` when absent. -/
def sensorValue (r : RawReading) (s : String) : Option ℚ := r.sensors.lookup s

/-- Values of sensor column `s` over a list of readings, nulls skipped. -/
def sensorVals (s : String) (rs : List RawReading) : List ℚ :=
  rs.filterMap (fun r => sensorValue r s)

/-- One step of the running-maximum accumulator. -/
def omaxStep (x : ℚ) (m : Option ℚ) : Option ℚ :=
  match m with
  | none => some x
  | some y => some (max x y)

/-- Running maximum of a list of values, `none` on the empty list. -/
def omax (vals : List ℚ) : Option ℚ := vals.foldr omaxStep none

/-- Sample variance (the square of the sample standard deviation, with the
usual ddof = 1 denominator), from one-pass accumulators: count, sum and sum
of squares. -/
def sampleVar (vals : List ℚ) : ℚ :=
  ((vals.map (fun v => v ^ 2)).sum - vals.sum ^ 2 / (vals.length : ℚ)) /
    ((vals.length : ℚ) - 1)

/-- Modelled from the spec: per-sensor aggregation over one window (§4.1) —
mean, max and std from one-pass accumulators; `none` when the sensor has no
sample in the window (the check-skipping MissingSensor case of §7); the std
is the explicit undefined marker when the sensor has fewer than two
samples. -/
def aggSensor (vals : List ℚ) : Option SensorStat :=
  if vals.length = 0 then none
  else
    some { mean := vals.sum / (vals.length : ℚ)
           max := (omax vals).getD 0
           std := if 2 ≤ vals.length then some (sampleVar vals) else none }

/-- Modelled from the spec: GPS nominal reporting rate (§6) — the expected
number of GPS sub-samples per window.  The value is a configuration constant
not recorded in the visible source; any positive constant; one per second
over a one-minute window is used here. -/
def GPS_EXPECTED : ℕ := 60

/-- Extraction of a non-null GPS fix from one reading. -/
def gpsFix (r : RawReading) : Option (ℚ × ℚ) :=
  match r.latitude, r.longitude with
  | some la, some lo => some (la, lo)
  | _, _ => none

/-- Non-null GPS fixes over a list of readings. -/
def gpsFixes (rs : List RawReading) : List (ℚ × ℚ) := rs.filterMap gpsFix

/-- Average of a list of values, `none` on the empty list. -/
def avgOf (l : List ℚ) : Option ℚ :=
  if l = [] then none else some (l.sum / (l.length : ℚ))

/-- Insertion of an element into a list, before the first element it
compares below-or-equal to. -/
def insertLe {α : Type} (le : α → α → Bool) (x : α) : List α → List α
  | [] => [x]
  | y :: ys => if le x y then x :: y :: ys else y :: insertLe le x ys

/-- Insertion sort by a boolean comparator. -/
def sortLe {α : Type} (le : α → α → Bool) (l : List α) : List α :=
  l.foldr (insertLe le) []

/-- Observations of the cumulative energy counter in a window, tagged with
their timestamps. -/
def energyObs (rs : List RawReading) : List (ℕ × ℚ) :=
  rs.filterMap (fun r => (sensorValue r "energy").map (fun v => (r.ts, v)))

/-- Ordering of timestamped observations: by time, ties by value. -/
def obsLe (a b : ℕ × ℚ) : Bool :=
  decide (a.1 < b.1) || (decide (a.1 = b.1) && decide (a.2 ≤ b.2))

/-- Modelled from the spec: the derived `energy_consumption` field (§4.1) —
last cumulative energy in the window minus the first, clipped at 0 to reject
counter resets; `none` when the window has no energy sample.  Samples are
ordered by time (ties by value), so the result depends only on the window's
sample multiset. -/
def windowEnergy (rs : List RawReading) : Option ℚ :=
  match sortLe obsLe (energyObs rs) with
  | [] => none
  | h :: t => some (max 0 ((t.getLastD h).2 - h.2))

/-- Modelled from the spec: FeatureVector (§3) — one row per
(locomotive, window): per-sensor statistics, sample count, GPS availability
and average fix, fault count and the derived energy and speed fields. -/
structure FeatureVector where
  locoid : ℤ
  ts : ℕ
  stats : List (String × Option SensorStat)
  sample_count : ℕ
  gps_availability : ℚ
  avg_lat : Option ℚ
  avg_lon : Option ℚ
  fault_count : ℚ
  energy_consumption : Option ℚ
  avg_speed : Option ℚ
  deriving DecidableEq

/-- Modelled from the spec: aggregation of one non-empty window (§4.1). -/
def aggregateWindow (loco : ℤ) (w : ℕ) (rs : List RawReading) : FeatureVector :=
  { locoid := loco
    ts := w
    stats := SENSORS.map (fun s => (s, aggSensor (sensorVals s rs)))
    sample_count := rs.length
    gps_availability := ((gpsFixes rs).length : ℚ) / (GPS_EXPECTED : ℚ)
    avg_lat := avgOf ((gpsFixes rs).map Prod.fst)
    avg_lon := avgOf ((gpsFixes rs).map Prod.snd)
    fault_count := (sensorVals "faultnum" rs).sum
    energy_consumption := windowEnergy rs
    avg_speed := (aggSensor (sensorVals "speed" rs)).map SensorStat.mean }

/-- Start of the window holding timestamp `ts`:
`floor(ts / duration) * duration` (§4.1). -/
def windowStart (dur ts : ℕ) : ℕ := ts / dur * dur

/-- Window start of one reading. -/
def windowOf (dur : ℕ) (r : RawReading) : ℕ := windowStart dur r.ts

/-- Starts of the non-empty windows of a reading list, ascending. -/
def windowStarts (dur : ℕ) (rs : List RawReading) : List ℕ :=
  (List.range ((rs.map RawReading.ts).foldr max 0 + 1)).filter
    (fun w => rs.any (fun r => windowOf dur r == w))

/-- Modelled from the spec: Feature Aggregator (§4.1) — bucket one
locomotive's readings by `floor(ts / duration) * duration` and emit one
FeatureVector per non-empty window, ordered by window start ascending; empty
windows are dropped, not zero-filled. -/
def featureAggregator (dur : ℕ) (loco : ℤ) (rs0 : List RawReading) :
    List FeatureVector :=
  let rs := rs0.filter (fun r => r.locoid == loco)
  (windowStarts dur rs).map
    (fun w => aggregateWindow loco w (rs.filter (fun r => windowOf dur r == w)))

/-- Statistics of one configured sensor in a FeatureVector. -/
def FeatureVector.statOf (fv : FeatureVector) (s : String) : Option SensorStat :=
  (fv.stats.lookup s).join

/-- Window mean of one configured sensor, `none` when missing. -/
def FeatureVector.meanOf (fv : FeatureVector) (s : String) : Option ℚ :=
  (fv.statOf s).map SensorStat.mean

/-- Window max of one configured sensor, `none` when missing. -/
def FeatureVector.maxOf (fv : FeatureVector) (s : String) : Option ℚ :=
  (fv.statOf s).map SensorStat.max

/-- Window std of one configured sensor (represented by the variance),
`none` when missing or undefined. -/
def FeatureVector.stdOf (fv : FeatureVector) (s : String) : Option ℚ :=
  (fv.statOf s).bind SensorStat.std

/-- Upper-bound check of the rule scorer: one label when the value strictly
exceeds the bound; a missing value skips the check (§4.2, §7). -/
def checkGT (label : String) (v : Option ℚ) (lim : ℚ) : List String :=
  match v with
  | none => []
  | some x => if lim < x then [label] else []

/-- Lower-bound check of the rule scorer: one label when the value is
strictly below the bound; a missing value skips the check. -/
def checkLT (label : String) (v : Option ℚ) (lim : ℚ) : List String :=
  match v with
  | none => []
  | some x => if x < lim then [label] else []

/-- Rate-of-change check of the rule scorer: one label when the per-window
delta strictly exceeds the bound; a missing value on either side skips the
check. -/
def checkRate (label : String) (cur prior : Option ℚ) (lim : ℚ) : List String :=
  match cur, prior with
  | some a, some b => if lim < |a - b| then [label] else []
  | _, _ => []

/-- Modelled from the spec: Rule-Based Scorer (§4.2) — evaluates the
threshold-table checks in a fixed order and returns the violation labels.
Absolute bounds are strict comparisons (a value equal to the bound is not a
violation, §8); rate-of-change checks need the previous window's vector and
are skipped entirely when it is absent (first window of a series); a missing
sensor skips its check.  The dispersion bound `current_std_max` compares the
variance representation against the squared bound, since
std > 50 ⟺ variance > 50². -/
def ruleScorer (prev : Option FeatureVector) (fv : FeatureVector) : List String :=
  checkGT "rule:temp_motor_max" (fv.meanOf "temp_motor1_1")
      (threshold "temp_motor_max")
  ++ (match prev with
      | none => []
      | some p => checkRate "rule:temp_motor_rate_max" (fv.meanOf "temp_motor1_1")
          (p.meanOf "temp_motor1_1") (threshold "temp_motor_rate_max"))
  ++ checkGT "rule:current_std_max" (fv.stdOf "current_u")
      (threshold "current_std_max" ^ 2)
  ++ checkLT "rule:battery_min" (fv.meanOf "battery_volt") (threshold "battery_min")
  ++ (match prev with
      | none => []
      | some p => checkRate "rule:speed_jump_max" fv.avg_speed p.avg_speed
          (threshold "speed_jump_max"))
  ++ checkLT "rule:pressure_min" (fv.meanOf "pressure_tr1") (threshold "pressure_min")
  ++ checkGT "rule:pressure_max" (fv.meanOf "pressure_tr1") (threshold "pressure_max")

/-- Comparator for sorting rationals ascending. -/
def qLe (a b : ℚ) : Bool := decide (a ≤ b)

/-- Median of a list of rationals: middle element of the sorted list, or the
average of the two middle elements on even length. -/
def median (l : List ℚ) : ℚ :=
  let s := sortLe qLe l
  if s.length % 2 = 1 then s.getD (s.length / 2) 0
  else (s.getD (s.length / 2 - 1) 0 + s.getD (s.length / 2) 0) / 2

/-- Median absolute deviation of a reference set about its median. -/
def refMAD (ref : List ℚ) : ℚ :=
  median (ref.map (fun v => |v - median ref|))

/-- Scaling factor 0.6745 from robust z-score to sigma units (§4.3). -/
def MAD_SIGMA : ℚ := 0.6745

/-- Modelled from the spec: core of the Robust Statistical Scorer (§4.3) —
robust z-score `z = 0.6745 · (x − M) / MAD` against the reference set,
flagged when `|z|` exceeds `MAD_THRESHOLD`.  When MAD = 0 (constant
reference, the degenerate case) any deviation from the median is an
automatic flag and no division is performed. -/
def madFlag (ref : List ℚ) (x : ℚ) : Bool :=
  if refMAD ref = 0 then decide (x ≠ median ref)
  else decide (MAD_THRESHOLD < MAD_SIGMA * |x - median ref| / refMAD ref)

/-- Modelled from the spec: value of one configured anomaly feature (the
`ANOMALY_FEATURES` names) read from a FeatureVector; `none` when the
underlying sensor is missing, in which case the check is skipped (§7). -/
def featVal (fv : FeatureVector) : String → Option ℚ
  | "temp_motor1_1_mean" => fv.meanOf "temp_motor1_1"
  | "temp_motor1_1_max" => fv.maxOf "temp_motor1_1"
  | "temp_motor1_1_std" => fv.stdOf "temp_motor1_1"
  | "current_u_mean" => fv.meanOf "current_u"
  | "current_u_std" => fv.stdOf "current_u"
  | "pressure_tr1_mean" => fv.meanOf "pressure_tr1"
  | "pressure_tr1_std" => fv.stdOf "pressure_tr1"
  | "energy_consumption" => fv.energy_consumption
  | "avg_speed" => fv.avg_speed
  | "battery_volt_mean" => fv.meanOf "battery_volt"
  | _ => none

/-- Modelled from the spec: Robust Statistical Scorer (§4.3) — one
`"mad:<feature>"` label per configured anomaly feature whose value is
flagged against its reference distribution `refs`. -/
def madScorer (refs : String → List ℚ) (fv : FeatureVector) : List String :=
  ANOMALY_FEATURES.filterMap (fun feat =>
    match featVal fv feat with
    | none => none
    | some x => if madFlag (refs feat) x then some ("mad:" ++ feat) else none)

/-- Outputs of the three scorers handed to Anomaly Fusion (§4.5). -/
structure ScorerOutputs where
  ruleLabels : List String
  madLabels : List String
  iforestFlag : Bool

/-- Modelled from the spec: AnomalyRecord (§3) — a FeatureVector plus the
fused anomaly verdict. -/
structure AnomalyRecord where
  fv : FeatureVector
  anomaly_score : ℕ
  is_anomaly : Bool
  anomaly_types : List String
  deriving DecidableEq

/-- Modelled from the spec: Anomaly Fusion (§4.5) — concatenate the rule
labels, the MAD labels, then `"iforest"` when the multivariate scorer
flagged, in that order; every contributing signal weighs 1, so the score is
the length of the label list, and `is_anomaly` holds exactly when the score
is at least 1. -/
def fuse (fv : FeatureVector) (o : ScorerOutputs) : AnomalyRecord :=
  let types := o.ruleLabels ++ o.madLabels ++ (if o.iforestFlag then ["iforest"] else [])
  { fv := fv
    anomaly_score := types.length
    is_anomaly := decide (1 ≤ types.length)
    anomaly_types := types }

/-- Modelled from the spec: sink serialization of `anomaly_types` (§6) — one
';'-joined string for the external consumer; `dashboard.py` splits it back
on ';'. -/
def serializeTypes (types : List String) : String := String.intercalate ";" types

/-- Filter from `dashboard.py` `main` (Geographic View page): keep only the
rows whose `avg_lat` and `avg_lon` are both present (the pandas `notna`
conjunction) before rendering map markers. -/
def geoFilter (rows : List AnomalyRecord) : List AnomalyRecord :=
  rows.filter (fun r => r.fv.avg_lat.isSome && r.fv.avg_lon.isSome)

/-- Embedding of `dashboard.py` `load_data`: `attempt` is the result of
`pd.read_parquet` plus the `ts` parse inside the `try` block; any raised
error is caught, reported via `st.error`, and turned into `None`. -/
def load_data (attempt : Except String (List AnomalyRecord)) :
    Option (List AnomalyRecord) :=
  match attempt with
  | .ok df => some df
  | .error _ => none

/-- Observable outcome of `dashboard.py` `main`: either the early error
screen (no filter or chart evaluated) or the dashboard over the filtered
rows. -/
inductive MainOutcome where
  | errorScreen
  | dashboard (rows : List AnomalyRecord)
  deriving DecidableEq

/-- Embedding of `dashboard.py` `main`: when `load_data` yields `None` the
error screen is reported and the function returns before any filter or chart;
otherwise the sidebar filters run and the charts render. -/
def main (attempt : Except String (List AnomalyRecord))
    (applyFilters : List AnomalyRecord → List AnomalyRecord) : MainOutcome :=
  match load_data attempt with
  | none => .errorScreen
  | some df => .dashboard (applyFilters df)

/-! ### Supporting lemmas about the insertion sort -/

theorem insertLe_perm {α : Type} (le : α → α → Bool) (x : α) :
    ∀ l : List α, (insertLe le x l).Perm (x :: l)
  | [] => List.Perm.refl _
  | y :: ys => by
    unfold insertLe
    cases h : le x y with
    | true => simp
    | false =>
      simp only [Bool.false_eq_true, if_false]
      exact (List.Perm.cons y (insertLe_perm le x ys)).trans (List.Perm.swap x y ys)

theorem sortLe_perm {α : Type} (le : α → α → Bool) :
    ∀ l : List α, (sortLe le l).Perm l
  | [] => List.Perm.refl _
  | x :: xs =>
    (insertLe_perm le x (sortLe le xs)).trans (List.Perm.cons x (sortLe_perm le xs))

theorem insertLe_pairwise {α : Type} {le : α → α → Bool}
    (htrans : ∀ a b c, le a b = true → le b c = true → le a c = true)
    (htot : ∀ a b, le a b = true ∨ le b a = true) (x : α) :
    ∀ {l : List α}, l.Pairwise (fun a b => le a b = true) →
      (insertLe le x l).Pairwise (fun a b => le a b = true)
  | [], _ => by simp [insertLe]
  | y :: ys, h => by
    obtain ⟨hy, hys⟩ := List.pairwise_cons.mp h
    unfold insertLe
    cases hxy : le x y with
    | true =>
      simp only [if_true]
      refine List.pairwise_cons.mpr ⟨?_, h⟩
      intro b hb
      rcases List.mem_cons.mp hb with rfl | hb
      · exact hxy
      · exact htrans x y b hxy (hy b hb)
    | false =>
      simp only [Bool.false_eq_true, if_false]
      refine List.pairwise_cons.mpr ⟨?_, insertLe_pairwise htrans htot x hys⟩
      intro b hb
      rcases List.mem_cons.mp ((insertLe_perm le x ys).mem_iff.mp hb) with rfl | hb
      · rcases htot b y with h1 | h1
        · exact absurd h1 (by simp [hxy])
        · exact h1
      · exact hy b hb

theorem sortLe_pairwise {α : Type} {le : α → α → Bool}
    (htrans : ∀ a b c, le a b = true → le b c = true → le a c = true)
    (htot : ∀ a b, le a b = true ∨ le b a = true) :
    ∀ l : List α, (sortLe le l).Pairwise (fun a b => le a b = true)
  | [] => List.Pairwise.nil
  | x :: xs => insertLe_pairwise htrans htot x (sortLe_pairwise htrans htot xs)

theorem sortLe_eq_of_perm {α : Type} {le : α → α → Bool}
    (hanti : ∀ a b, le a b = true → le b a = true → a = b)
    (htrans : ∀ a b c, le a b = true → le b c = true → le a c = true)
    (htot : ∀ a b, le a b = true ∨ le b a = true)
    {l1 l2 : List α} (h : l1.Perm l2) : sortLe le l1 = sortLe le l2 :=
  @List.eq_of_perm_of_sorted α (fun a b => le a b = true) ⟨hanti⟩ _ _
    ((sortLe_perm le l1).trans (h.trans (sortLe_perm le l2).symm))
    (sortLe_pairwise htrans htot l1) (sortLe_pairwise htrans htot l2)

theorem qLe_trans : ∀ a b c : ℚ, qLe a b = true → qLe b c = true → qLe a c = true :=
  fun _ _ _ hab hbc =>
    decide_eq_true_eq.mpr (le_trans (of_decide_eq_true hab) (of_decide_eq_true hbc))

theorem qLe_total : ∀ a b : ℚ, qLe a b = true ∨ qLe b a = true :=
  fun a b => (le_total a b).imp decide_eq_true decide_eq_true

theorem qLe_anti : ∀ a b : ℚ, qLe a b = true → qLe b a = true → a = b :=
  fun _ _ hab hba => le_antisymm (of_decide_eq_true hab) (of_decide_eq_true hba)

theorem obsLe_iff (a b : ℕ × ℚ) :
    obsLe a b = true ↔ a.1 < b.1 ∨ (a.1 = b.1 ∧ a.2 ≤ b.2) := by
  simp [obsLe]

theorem obsLe_trans : ∀ a b c : ℕ × ℚ,
    obsLe a b = true → obsLe b c = true → obsLe a c = true := by
  intro a b c hab hbc
  rw [obsLe_iff] at hab hbc ⊢
  rcases hab with h1 | ⟨h1, h1q⟩ <;> rcases hbc with h2 | ⟨h2, h2q⟩
  · exact Or.inl (h1.trans h2)
  · exact Or.inl (h2 ▸ h1)
  · exact Or.inl (h1 ▸ h2)
  · exact Or.inr ⟨h1.trans h2, le_trans h1q h2q⟩

theorem obsLe_total : ∀ a b : ℕ × ℚ, obsLe a b = true ∨ obsLe b a = true := by
  intro a b
  rw [obsLe_iff, obsLe_iff]
  rcases Nat.lt_trichotomy a.1 b.1 with h | h | h
  · exact Or.inl (Or.inl h)
  · rcases le_total a.2 b.2 with hq | hq
    · exact Or.inl (Or.inr ⟨h, hq⟩)
    · exact Or.inr (Or.inr ⟨h.symm, hq⟩)
  · exact Or.inr (Or.inl h)

theorem obsLe_anti : ∀ a b : ℕ × ℚ, obsLe a b = true → obsLe b a = true → a = b := by
  intro a b hab hba
  rw [obsLe_iff] at hab hba
  rcases hab with h1 | ⟨h1, h1q⟩ <;> rcases hba with h2 | ⟨h2, h2q⟩ <;>
    first
    | omega
    | exact Prod.ext (by omega) (le_antisymm h1q h2q)

/-! ### Permutation invariance of the window accumulators -/

theorem any_perm {α : Type} {l1 l2 : List α} (h : l1.Perm l2) (p : α → Bool) :
    l1.any p = l2.any p := by
  induction h with
  | nil => rfl
  | cons x _ ih => simp [List.any_cons, ih]
  | swap x y l => simp only [List.any_cons]; exact Bool.or_left_comm _ _ _
  | trans _ _ ih1 ih2 => exact ih1.trans ih2

theorem omaxStep_left_comm (a b : ℚ) (m : Option ℚ) :
    omaxStep a (omaxStep b m) = omaxStep b (omaxStep a m) := by
  cases m with
  | none => simp only [omaxStep]; rw [max_comm]
  | some y => simp only [omaxStep]; rw [max_left_comm]

theorem omax_perm {l1 l2 : List ℚ} (h : l1.Perm l2) : omax l1 = omax l2 := by
  haveI : LeftCommutative omaxStep := ⟨omaxStep_left_comm⟩
  exact h.foldr_eq none

theorem foldr_max_perm {l1 l2 : List ℕ} (h : l1.Perm l2) :
    l1.foldr max 0 = l2.foldr max 0 := by
  haveI : LeftCommutative (max : ℕ → ℕ → ℕ) := ⟨fun a b c => max_left_comm a b c⟩
  exact h.foldr_eq 0

theorem avgOf_perm {l1 l2 : List ℚ} (h : l1.Perm l2) : avgOf l1 = avgOf l2 := by
  unfold avgOf
  by_cases h1 : l1 = []
  · have h2 : l2 = [] := (h1 ▸ h).symm.eq_nil
    rw [h1, h2]
  · have h2 : l2 ≠ [] := fun he => h1 ((he ▸ h).eq_nil)
    rw [if_neg h1, if_neg h2, h.sum_eq, h.length_eq]

theorem sampleVar_perm {l1 l2 : List ℚ} (h : l1.Perm l2) : sampleVar l1 = sampleVar l2 := by
  unfold sampleVar
  rw [(h.map _).sum_eq, h.sum_eq, h.length_eq]

theorem aggSensor_perm {l1 l2 : List ℚ} (h : l1.Perm l2) : aggSensor l1 = aggSensor l2 := by
  unfold aggSensor
  rw [omax_perm h, sampleVar_perm h, h.sum_eq, h.length_eq]

/-! ### Label inventories of the scorers -/

/-- All rule labels the Rule-Based Scorer can emit, in emission order. -/
def RULE_LABELS : List String :=
  ["rule:temp_motor_max", "rule:temp_motor_rate_max", "rule:current_std_max",
   "rule:battery_min", "rule:speed_jump_max", "rule:pressure_min", "rule:pressure_max"]

/-- All MAD labels the Robust Statistical Scorer can emit, in emission
order. -/
def MAD_LABELS : List String := ANOMALY_FEATURES.map (fun f => "mad:" ++ f)

theorem checkGT_sublist (label : String) (v : Option ℚ) (lim : ℚ) :
    List.Sublist (checkGT label v lim) [label] := by
  cases v with
  | none => exact List.nil_sublist _
  | some x =>
    show List.Sublist (if lim < x then [label] else []) [label]
    by_cases hx : lim < x
    · rw [if_pos hx]
    · rw [if_neg hx]; exact List.nil_sublist _

theorem checkLT_sublist (label : String) (v : Option ℚ) (lim : ℚ) :
    List.Sublist (checkLT label v lim) [label] := by
  cases v with
  | none => exact List.nil_sublist _
  | some x =>
    show List.Sublist (if x < lim then [label] else []) [label]
    by_cases hx : x < lim
    · rw [if_pos hx]
    · rw [if_neg hx]; exact List.nil_sublist _

theorem checkRate_sublist (label : String) (cur prior : Option ℚ) (lim : ℚ) :
    List.Sublist (checkRate label cur prior lim) [label] := by
  cases cur with
  | none => cases prior <;> exact List.nil_sublist _
  | some a =>
    cases prior with
    | none => exact List.nil_sublist _
    | some b =>
      show List.Sublist (if lim < |a - b| then [label] else []) [label]
      by_cases hx : lim < |a - b|
      · rw [if_pos hx]
      · rw [if_neg hx]; exact List.nil_sublist _

theorem ruleScorer_sublist (prev : Option FeatureVector) (fv : FeatureVector) :
    List.Sublist (ruleScorer prev fv) RULE_LABELS := by
  have h2 : List.Sublist
      (match prev with
       | none => []
       | some p => checkRate "rule:temp_motor_rate_max" (fv.meanOf "temp_motor1_1")
           (p.meanOf "temp_motor1_1") (threshold "temp_motor_rate_max"))
      ["rule:temp_motor_rate_max"] := by
    cases prev with
    | none => exact List.nil_sublist _
    | some p => exact checkRate_sublist _ _ _ _
  have h5 : List.Sublist
      (match prev with
       | none => []
       | some p => checkRate "rule:speed_jump_max" fv.avg_speed p.avg_speed
           (threshold "speed_jump_max"))
      ["rule:speed_jump_max"] := by
    cases prev with
    | none => exact List.nil_sublist _
    | some p => exact checkRate_sublist _ _ _ _
  exact ((((((checkGT_sublist _ _ _).append h2).append
    (checkGT_sublist _ _ _)).append (checkLT_sublist _ _ _)).append h5).append
    (checkLT_sublist _ _ _)).append (checkGT_sublist _ _ _)

theorem filterMap_sublist_map {α β : Type} {f : α → Option β} {g : α → β}
    (hfg : ∀ a b, f a = some b → b = g a) :
    ∀ l : List α, List.Sublist (l.filterMap f) (l.map g)
  | [] => List.Sublist.refl _
  | a :: l => by
    rw [List.map_cons]
    cases hfa : f a with
    | none =>
      rw [List.filterMap_cons_none hfa]
      exact (filterMap_sublist_map hfg l).cons (g a)
    | some b =>
      rw [List.filterMap_cons_some hfa, hfg a b hfa]
      exact (filterMap_sublist_map hfg l).cons₂ (g a)

theorem madScorer_sublist (refs : String → List ℚ) (fv : FeatureVector) :
    List.Sublist (madScorer refs fv) MAD_LABELS := by
  apply filterMap_sublist_map
  intro a b h
  cases hv : featVal fv a with
  | none => rw [hv] at h; exact absurd h (by simp)
  | some x =>
    rw [hv] at h
    change (if madFlag (refs a) x = true then some ("mad:" ++ a) else none) = some b at h
    by_cases hm : madFlag (refs a) x = true
    · rw [if_pos hm] at h
      exact (Option.some.inj h).symm
    · rw [if_neg hm] at h
      exact absurd h (by simp)

/-! ### Median of a constant reference set -/

theorem getD_eq_of_all {s : List ℚ} {c : ℚ} (hall : ∀ v ∈ s, v = c) {i : ℕ}
    (hi : i < s.length) : s.getD i 0 = c := by
  rw [List.getD_eq_getElem?_getD, List.getElem?_eq_getElem hi, Option.getD_some]
  exact hall _ (List.getElem_mem hi)

theorem median_const {l : List ℚ} {c : ℚ} (hne : l ≠ []) (hall : ∀ v ∈ l, v = c) :
    median l = c := by
  have hperm := sortLe_perm qLe l
  have hmem : ∀ v ∈ sortLe qLe l, v = c := fun v hv => hall v (hperm.subset hv)
  have hpos : 0 < (sortLe qLe l).length := by
    rw [hperm.length_eq]
    exact List.length_pos.mpr hne
  have hlt : (sortLe qLe l).length / 2 < (sortLe qLe l).length :=
    Nat.div_lt_self hpos one_lt_two
  have hlt1 : (sortLe qLe l).length / 2 - 1 < (sortLe qLe l).length :=
    lt_of_le_of_lt (Nat.sub_le _ _) hlt
  unfold median
  by_cases hodd : (sortLe qLe l).length % 2 = 1
  · rw [if_pos hodd]
    exact getD_eq_of_all hmem hlt
  · rw [if_neg hodd, getD_eq_of_all hmem hlt1, getD_eq_of_all hmem hlt]
    ring

theorem refMAD_const {l : List ℚ} {c : ℚ} (hne : l ≠ []) (hall : ∀ v ∈ l, v = c) :
    refMAD l = 0 := by
  unfold refMAD
  apply median_const
  · simp [hne]
  · intro v hv
    obtain ⟨w, hw, rfl⟩ := List.mem_map.mp hv
    rw [median_const hne hall, hall w hw, sub_self, abs_zero]

/-! ### Permutation invariance of the aggregator -/

theorem windowStarts_perm (dur : ℕ) {rs1 rs2 : List RawReading}
    (h : rs1.Perm rs2) : windowStarts dur rs1 = windowStarts dur rs2 := by
  unfold windowStarts
  rw [foldr_max_perm (h.map RawReading.ts)]
  exact List.filter_congr (fun w _ => any_perm h _)

theorem windowEnergy_perm {rs1 rs2 : List RawReading} (h : rs1.Perm rs2) :
    windowEnergy rs1 = windowEnergy rs2 := by
  unfold windowEnergy energyObs
  rw [sortLe_eq_of_perm obsLe_anti obsLe_trans obsLe_total (h.filterMap _)]

theorem aggregateWindow_perm (loco : ℤ) (w : ℕ) {rs1 rs2 : List RawReading}
    (h : rs1.Perm rs2) : aggregateWindow loco w rs1 = aggregateWindow loco w rs2 := by
  have hsv : ∀ s, (sensorVals s rs1).Perm (sensorVals s rs2) := fun s => h.filterMap _
  have hfix : (gpsFixes rs1).Perm (gpsFixes rs2) := h.filterMap _
  unfold aggregateWindow
  rw [FeatureVector.mk.injEq]
  refine ⟨rfl, rfl, ?_, h.length_eq, ?_, ?_, ?_, ?_, ?_, ?_⟩
  · exact List.map_congr_left (fun s _ => by rw [aggSensor_perm (hsv s)])
  · rw [hfix.length_eq]
  · exact avgOf_perm (hfix.map _)
  · exact avgOf_perm (hfix.map _)
  · exact (hsv "faultnum").sum_eq
  · exact windowEnergy_perm h
  · rw [aggSensor_perm (hsv "speed")]

/-! ### Membership in the rule checks -/

theorem mem_checkGT {x label : String} {v : Option ℚ} {lim : ℚ}
    (h : x ∈ checkGT label v lim) : x = label := by
  cases v with
  | none => exact absurd h (List.not_mem_nil x)
  | some a =>
    change x ∈ (if lim < a then [label] else []) at h
    by_cases ha : lim < a
    · rw [if_pos ha] at h
      exact List.mem_singleton.mp h
    · rw [if_neg ha] at h
      exact absurd h (List.not_mem_nil x)

theorem mem_checkLT {x label : String} {v : Option ℚ} {lim : ℚ}
    (h : x ∈ checkLT label v lim) : x = label := by
  cases v with
  | none => exact absurd h (List.not_mem_nil x)
  | some a =>
    change x ∈ (if a < lim then [label] else []) at h
    by_cases ha : a < lim
    · rw [if_pos ha] at h
      exact List.mem_singleton.mp h
    · rw [if_neg ha] at h
      exact absurd h (List.not_mem_nil x)

theorem mem_checkRate {x label : String} {cur prior : Option ℚ} {lim : ℚ}
    (h : x ∈ checkRate label cur prior lim) : x = label := by
  cases cur with
  | none => cases prior <;> exact absurd h (List.not_mem_nil x)
  | some a =>
    cases prior with
    | none => exact absurd h (List.not_mem_nil x)
    | some b =>
      change x ∈ (if lim < |a - b| then [label] else []) at h
      by_cases ha : lim < |a - b|
      · rw [if_pos ha] at h
        exact List.mem_singleton.mp h
      · rw [if_neg ha] at h
        exact absurd h (List.not_mem_nil x)

theorem checkGT_boundary (label : String) (lim : ℚ) :
    checkGT label (some lim) lim = [] := by
  change (if lim < lim then [label] else []) = []
  rw [if_neg (lt_irrefl lim)]

theorem checkLT_boundary (label : String) (lim : ℚ) :
    checkLT label (some lim) lim = [] := by
  change (if lim < lim then [label] else []) = []
  rw [if_neg (lt_irrefl lim)]

/-! ### Claim theorems -/

/-- C5: the configuration constants equal the spec defaults — window
duration one minute, MAD threshold 3.5, multivariate contamination 0.01,
chunk size 1,000,000 rows, and the ordered anomaly-feature list holding
exactly the 10 named aggregated fields. -/
theorem config_defaults :
    AGGREGATION_INTERVAL = "1min" ∧ WINDOW_DURATION = 60 ∧
    MAD_THRESHOLD = 7 / 2 ∧ ISOLATION_FOREST_CONTAMINATION = 1 / 100 ∧
    CHUNK_SIZE = 1000000 ∧ ANOMALY_FEATURES.length = 10 ∧
    ANOMALY_FEATURES =
      ["temp_motor1_1_mean", "temp_motor1_1_max", "temp_motor1_1_std",
       "current_u_mean", "current_u_std", "pressure_tr1_mean",
       "pressure_tr1_std", "energy_consumption", "avg_speed",
       "battery_volt_mean"] :=
  ⟨rfl, rfl, by norm_num [MAD_THRESHOLD],
   by norm_num [ISOLATION_FOREST_CONTAMINATION], rfl, rfl, rfl⟩

/-- C1: for every AnomalyRecord produced by Anomaly Fusion, the anomaly
score equals the count of rule violation labels plus the count of MAD flag
labels plus 1 when the multivariate scorer flagged (else 0), and is_anomaly
holds exactly when the score is at least 1. -/
theorem fusion_is_pure_sum (fv : FeatureVector) (o : ScorerOutputs) :
    (fuse fv o).anomaly_score =
      o.ruleLabels.length + o.madLabels.length +
        (if o.iforestFlag then 1 else 0) ∧
    ((fuse fv o).is_anomaly = true ↔ 1 ≤ (fuse fv o).anomaly_score) := by
  constructor
  · show (o.ruleLabels ++ o.madLabels ++
      (if o.iforestFlag then ["iforest"] else [])).length = _
    rw [List.length_append, List.length_append]
    cases o.iforestFlag <;> rfl
  · show decide (1 ≤ (o.ruleLabels ++ o.madLabels ++
      (if o.iforestFlag then ["iforest"] else [])).length) = true ↔ _
    rw [decide_eq_true_eq]
    exact Iff.rfl

/-- C10: a failure while loading the anomaly artifact makes `load_data`
return `None` rather than propagate, and `main`, given that `None`, reports
the error screen and returns without evaluating any filter or chart — the
error screen is distinct from every dashboard render. -/
theorem load_error_returns_early (e : String)
    (applyFilters : List AnomalyRecord → List AnomalyRecord) :
    load_data (Except.error e) = none ∧
    main (Except.error e) applyFilters = MainOutcome.errorScreen ∧
    ∀ rows, MainOutcome.errorScreen ≠ MainOutcome.dashboard rows :=
  ⟨rfl, rfl, fun _ h => MainOutcome.noConfusion h⟩

/-- C3: for a reference set in which every value equals one constant `c`,
the Robust Statistical Scorer's MAD is 0 — the degenerate branch that
performs no division — and an input is flagged exactly when it differs
from `c`. -/
theorem mad_constant_reference (ref : List ℚ) (c x : ℚ) (hne : ref ≠ [])
    (hall : ∀ v ∈ ref, v = c) :
    refMAD ref = 0 ∧ (madFlag ref x = true ↔ x ≠ c) := by
  have hM : median ref = c := median_const hne hall
  have hmad : refMAD ref = 0 := refMAD_const hne hall
  refine ⟨hmad, ?_⟩
  unfold madFlag
  rw [if_pos hmad, hM, decide_eq_true_eq]

/-- Witness for C3 at the constant reference set `[5, 5]` and the deviating
input 7. -/
theorem mad_constant_reference_witness :
    (([5, 5] : List ℚ) ≠ [] ∧ ∀ v ∈ ([5, 5] : List ℚ), v = 5) ∧
    (refMAD [5, 5] = 0 ∧ (madFlag [5, 5] 7 = true ↔ (7 : ℚ) ≠ 5)) := by
  have hne : ([5, 5] : List ℚ) ≠ [] := by simp
  have hall : ∀ v ∈ ([5, 5] : List ℚ), v = 5 := by
    intro v hv
    rcases List.mem_cons.mp hv with rfl | hv2
    · rfl
    · exact List.mem_singleton.mp hv2
  exact ⟨⟨hne, hall⟩, mad_constant_reference [5, 5] 5 7 hne hall⟩

theorem ruleScorer_none_eq (fv : FeatureVector) :
    ruleScorer none fv =
      checkGT "rule:temp_motor_max" (fv.meanOf "temp_motor1_1")
        (threshold "temp_motor_max")
      ++ checkGT "rule:current_std_max" (fv.stdOf "current_u")
        (threshold "current_std_max" ^ 2)
      ++ checkLT "rule:battery_min" (fv.meanOf "battery_volt")
        (threshold "battery_min")
      ++ checkLT "rule:pressure_min" (fv.meanOf "pressure_tr1")
        (threshold "pressure_min")
      ++ checkGT "rule:pressure_max" (fv.meanOf "pressure_tr1")
        (threshold "pressure_max") := by
  have he0 : ruleScorer none fv =
      checkGT "rule:temp_motor_max" (fv.meanOf "temp_motor1_1")
        (threshold "temp_motor_max")
      ++ ([] : List String)
      ++ checkGT "rule:current_std_max" (fv.stdOf "current_u")
        (threshold "current_std_max" ^ 2)
      ++ checkLT "rule:battery_min" (fv.meanOf "battery_volt")
        (threshold "battery_min")
      ++ ([] : List String)
      ++ checkLT "rule:pressure_min" (fv.meanOf "pressure_tr1")
        (threshold "pressure_min")
      ++ checkGT "rule:pressure_max" (fv.meanOf "pressure_tr1")
        (threshold "pressure_max") := rfl
  rw [he0, List.append_nil, List.append_nil]

theorem not_mem_ruleScorer_none {x : String} (fv : FeatureVector)
    (h1 : x ≠ "rule:temp_motor_max") (h2 : x ≠ "rule:current_std_max")
    (h3 : x ≠ "rule:battery_min") (h4 : x ≠ "rule:pressure_min")
    (h5 : x ≠ "rule:pressure_max") : x ∉ ruleScorer none fv := by
  intro h
  rw [ruleScorer_none_eq] at h
  simp only [List.mem_append] at h
  rcases h with (((h | h) | h) | h) | h
  · exact h1 (mem_checkGT h)
  · exact h2 (mem_checkGT h)
  · exact h3 (mem_checkLT h)
  · exact h4 (mem_checkLT h)
  · exact h5 (mem_checkGT h)

/-- C7: on the first FeatureWindow of a locomotive's series (no prior
FeatureVector supplied), the Rule-Based Scorer evaluates no rate-of-change
check: neither rate label can appear in its output. -/
theorem first_window_skips_rate_checks (fv : FeatureVector) :
    "rule:temp_motor_rate_max" ∉ ruleScorer none fv ∧
    "rule:speed_jump_max" ∉ ruleScorer none fv :=
  ⟨not_mem_ruleScorer_none fv (by decide) (by decide) (by decide) (by decide)
     (by decide),
   not_mem_ruleScorer_none fv (by decide) (by decide) (by decide) (by decide)
     (by decide)⟩

/-- C8: every fused AnomalyRecord lists its anomaly types with all rule
labels first, then all MAD labels, then `"iforest"` when the multivariate
scorer flagged; the list holds no duplicate label; and the sink serializes
it as a single ';'-joined string. -/
theorem anomaly_types_order_nodup_serialization (prev : Option FeatureVector)
    (fv : FeatureVector) (refs : String → List ℚ) (iflag : Bool) :
    (fuse fv ⟨ruleScorer prev fv, madScorer refs fv, iflag⟩).anomaly_types =
      ruleScorer prev fv ++ madScorer refs fv ++
        (if iflag then ["iforest"] else []) ∧
    (fuse fv ⟨ruleScorer prev fv, madScorer refs fv, iflag⟩).anomaly_types.Nodup ∧
    serializeTypes
        (fuse fv ⟨ruleScorer prev fv, madScorer refs fv, iflag⟩).anomaly_types =
      String.intercalate ";"
        (fuse fv ⟨ruleScorer prev fv, madScorer refs fv, iflag⟩).anomaly_types := by
  refine ⟨rfl, ?_, rfl⟩
  have hsub : List.Sublist
      (ruleScorer prev fv ++ madScorer refs fv ++
        (if iflag then ["iforest"] else []))
      (RULE_LABELS ++ MAD_LABELS ++ ["iforest"]) := by
    refine ((ruleScorer_sublist prev fv).append (madScorer_sublist refs fv)).append ?_
    cases iflag
    · exact List.nil_sublist _
    · exact List.Sublist.refl _
  have hnodup : (RULE_LABELS ++ MAD_LABELS ++ ["iforest"]).Nodup := by decide
  exact List.Nodup.sublist hsub hnodup

/-! ### Remaining helper equations -/

theorem featureAggregator_eq (dur : ℕ) (loco : ℤ) (rs0 : List RawReading) :
    featureAggregator dur loco rs0 =
      (windowStarts dur (rs0.filter (fun r => r.locoid == loco))).map
        (fun w => aggregateWindow loco w
          ((rs0.filter (fun r => r.locoid == loco)).filter
            (fun r => windowOf dur r == w))) := rfl

theorem aggregateWindow_std_none {loco : ℤ} {w : ℕ} {rsw : List RawReading}
    (h1 : rsw.length = 1) {s : String} {st : SensorStat}
    (hst : (s, some st) ∈ (aggregateWindow loco w rsw).stats) : st.std = none := by
  have hst2 : (s, some st) ∈
      SENSORS.map (fun s0 => (s0, aggSensor (sensorVals s0 rsw))) := hst
  obtain ⟨s0, _, heq⟩ := List.mem_map.mp hst2
  rw [Prod.mk.injEq] at heq
  obtain ⟨rfl, hagg⟩ := heq
  have hlen : (sensorVals s0 rsw).length ≤ 1 :=
    h1 ▸ List.length_filterMap_le _ _
  unfold aggSensor at hagg
  by_cases h0 : (sensorVals s0 rsw).length = 0
  · rw [if_pos h0] at hagg
    exact absurd hagg (by simp)
  · rw [if_neg h0] at hagg
    rw [← Option.some.inj hagg]
    show (if 2 ≤ (sensorVals s0 rsw).length then some (sampleVar _) else none) = none
    rw [if_neg (by omega)]

theorem aggregateWindow_gps_zero {loco : ℤ} {w : ℕ} {rsw : List RawReading}
    (h0 : (aggregateWindow loco w rsw).gps_availability = 0) :
    (aggregateWindow loco w rsw).avg_lat = none ∧
    (aggregateWindow loco w rsw).avg_lon = none := by
  have h0q : ((gpsFixes rsw).length : ℚ) / (GPS_EXPECTED : ℚ) = 0 := h0
  have hlen : (gpsFixes rsw).length = 0 := by
    rcases div_eq_zero_iff.mp h0q with h | h
    · exact_mod_cast h
    · exact absurd h (by norm_num [GPS_EXPECTED])
  have hnil : gpsFixes rsw = [] := List.length_eq_zero.mp hlen
  constructor
  · show avgOf ((gpsFixes rsw).map Prod.fst) = none
    rw [hnil]
    rfl
  · show avgOf ((gpsFixes rsw).map Prod.snd) = none
    rw [hnil]
    rfl

theorem ruleScorer_some_eq (p fv : FeatureVector) :
    ruleScorer (some p) fv =
      checkGT "rule:temp_motor_max" (fv.meanOf "temp_motor1_1")
        (threshold "temp_motor_max")
      ++ checkRate "rule:temp_motor_rate_max" (fv.meanOf "temp_motor1_1")
        (p.meanOf "temp_motor1_1") (threshold "temp_motor_rate_max")
      ++ checkGT "rule:current_std_max" (fv.stdOf "current_u")
        (threshold "current_std_max" ^ 2)
      ++ checkLT "rule:battery_min" (fv.meanOf "battery_volt")
        (threshold "battery_min")
      ++ checkRate "rule:speed_jump_max" fv.avg_speed p.avg_speed
        (threshold "speed_jump_max")
      ++ checkLT "rule:pressure_min" (fv.meanOf "pressure_tr1")
        (threshold "pressure_min")
      ++ checkGT "rule:pressure_max" (fv.meanOf "pressure_tr1")
        (threshold "pressure_max") := rfl

theorem mem_ruleScorer_localize {x : String} {prev : Option FeatureVector}
    {fv : FeatureVector} (h : x ∈ ruleScorer prev fv) :
    x ∈ checkGT "rule:temp_motor_max" (fv.meanOf "temp_motor1_1")
      (threshold "temp_motor_max") ∨
    x = "rule:temp_motor_rate_max" ∨
    x ∈ checkGT "rule:current_std_max" (fv.stdOf "current_u")
      (threshold "current_std_max" ^ 2) ∨
    x ∈ checkLT "rule:battery_min" (fv.meanOf "battery_volt")
      (threshold "battery_min") ∨
    x = "rule:speed_jump_max" ∨
    x ∈ checkLT "rule:pressure_min" (fv.meanOf "pressure_tr1")
      (threshold "pressure_min") ∨
    x ∈ checkGT "rule:pressure_max" (fv.meanOf "pressure_tr1")
      (threshold "pressure_max") := by
  cases prev with
  | none =>
    rw [ruleScorer_none_eq] at h
    simp only [List.mem_append] at h
    rcases h with (((h | h) | h) | h) | h
    · exact Or.inl h
    · exact Or.inr (Or.inr (Or.inl h))
    · exact Or.inr (Or.inr (Or.inr (Or.inl h)))
    · exact Or.inr (Or.inr (Or.inr (Or.inr (Or.inr (Or.inl h)))))
    · exact Or.inr (Or.inr (Or.inr (Or.inr (Or.inr (Or.inr h)))))
  | some p =>
    rw [ruleScorer_some_eq] at h
    simp only [List.mem_append] at h
    rcases h with (((((h | h) | h) | h) | h) | h) | h
    · exact Or.inl h
    · exact Or.inr (Or.inl (mem_checkRate h))
    · exact Or.inr (Or.inr (Or.inl h))
    · exact Or.inr (Or.inr (Or.inr (Or.inl h)))
    · exact Or.inr (Or.inr (Or.inr (Or.inr (Or.inl (mem_checkRate h)))))
    · exact Or.inr (Or.inr (Or.inr (Or.inr (Or.inr (Or.inl h)))))
    · exact Or.inr (Or.inr (Or.inr (Or.inr (Or.inr (Or.inr h)))))

/-- C6: for every absolute-bound check of the Rule-Based Scorer, a feature
value exactly equal to the configured threshold is not a violation — the
comparison is strict.  In particular motor temperature mean equal to
`temp_motor_max = 120` emits no `"rule:temp_motor_max"` label.  (The
dispersion check compares the variance representation against the squared
bound, so its boundary is the squared threshold.) -/
theorem rule_boundary_not_violation (prev : Option FeatureVector)
    (fv : FeatureVector) :
    threshold "temp_motor_max" = 120 ∧
    (fv.meanOf "temp_motor1_1" = some (threshold "temp_motor_max") →
      "rule:temp_motor_max" ∉ ruleScorer prev fv) ∧
    (fv.stdOf "current_u" = some (threshold "current_std_max" ^ 2) →
      "rule:current_std_max" ∉ ruleScorer prev fv) ∧
    (fv.meanOf "battery_volt" = some (threshold "battery_min") →
      "rule:battery_min" ∉ ruleScorer prev fv) ∧
    (fv.meanOf "pressure_tr1" = some (threshold "pressure_min") →
      "rule:pressure_min" ∉ ruleScorer prev fv) ∧
    (fv.meanOf "pressure_tr1" = some (threshold "pressure_max") →
      "rule:pressure_max" ∉ ruleScorer prev fv) := by
  refine ⟨rfl, ?_, ?_, ?_, ?_, ?_⟩
  · intro hb h
    rcases mem_ruleScorer_localize h with h | h | h | h | h | h | h
    · rw [hb, checkGT_boundary] at h
      exact absurd h (List.not_mem_nil _)
    · exact absurd h (by decide)
    · exact absurd (mem_checkGT h) (by decide)
    · exact absurd (mem_checkLT h) (by decide)
    · exact absurd h (by decide)
    · exact absurd (mem_checkLT h) (by decide)
    · exact absurd (mem_checkGT h) (by decide)
  · intro hb h
    rcases mem_ruleScorer_localize h with h | h | h | h | h | h | h
    · exact absurd (mem_checkGT h) (by decide)
    · exact absurd h (by decide)
    · rw [hb, checkGT_boundary] at h
      exact absurd h (List.not_mem_nil _)
    · exact absurd (mem_checkLT h) (by decide)
    · exact absurd h (by decide)
    · exact absurd (mem_checkLT h) (by decide)
    · exact absurd (mem_checkGT h) (by decide)
  · intro hb h
    rcases mem_ruleScorer_localize h with h | h | h | h | h | h | h
    · exact absurd (mem_checkGT h) (by decide)
    · exact absurd h (by decide)
    · exact absurd (mem_checkGT h) (by decide)
    · rw [hb, checkLT_boundary] at h
      exact absurd h (List.not_mem_nil _)
    · exact absurd h (by decide)
    · exact absurd (mem_checkLT h) (by decide)
    · exact absurd (mem_checkGT h) (by decide)
  · intro hb h
    rcases mem_ruleScorer_localize h with h | h | h | h | h | h | h
    · exact absurd (mem_checkGT h) (by decide)
    · exact absurd h (by decide)
    · exact absurd (mem_checkGT h) (by decide)
    · exact absurd (mem_checkLT h) (by decide)
    · exact absurd h (by decide)
    · rw [hb, checkLT_boundary] at h
      exact absurd h (List.not_mem_nil _)
    · exact absurd (mem_checkGT h) (by decide)
  · intro hb h
    rcases mem_ruleScorer_localize h with h | h | h | h | h | h | h
    · exact absurd (mem_checkGT h) (by decide)
    · exact absurd h (by decide)
    · exact absurd (mem_checkGT h) (by decide)
    · exact absurd (mem_checkLT h) (by decide)
    · exact absurd h (by decide)
    · exact absurd (mem_checkLT h) (by decide)
    · rw [hb, checkGT_boundary] at h
      exact absurd h (List.not_mem_nil _)

/-- Concrete FeatureVector whose motor temperature mean sits exactly at the
`temp_motor_max` threshold. -/
def wfv6 : FeatureVector :=
  { locoid := 1
    ts := 0
    stats := [("temp_motor1_1", some { mean := 120, max := 120, std := none })]
    sample_count := 1
    gps_availability := 0
    avg_lat := none
    avg_lon := none
    fault_count := 0
    energy_consumption := none
    avg_speed := none }

/-- Witness for C6: a vector with motor temperature mean exactly 120 gets no
`"rule:temp_motor_max"` label. -/
theorem rule_boundary_not_violation_witness :
    wfv6.meanOf "temp_motor1_1" = some (threshold "temp_motor_max") ∧
    "rule:temp_motor_max" ∉ ruleScorer none wfv6 :=
  ⟨rfl, (rule_boundary_not_violation none wfv6).2.1 rfl⟩

/-- C2: every FeatureVector the Feature Aggregator emits with
`sample_count = 1` carries the explicit undefined marker (`none`) as the std
of each configured sensor present in the window — never the numeric value
0. -/
theorem std_undefined_on_single_sample (dur : ℕ) (loco : ℤ)
    (rs : List RawReading) (fv : FeatureVector)
    (hfv : fv ∈ featureAggregator dur loco rs) (h1 : fv.sample_count = 1) :
    ∀ s st, (s, some st) ∈ fv.stats → st.std = none ∧ st.std ≠ some 0 := by
  intro s st hst
  rw [featureAggregator_eq] at hfv
  obtain ⟨w, _, heq⟩ := List.mem_map.mp hfv
  subst heq
  have hnone : st.std = none := aggregateWindow_std_none h1 hst
  exact ⟨hnone, by rw [hnone]; simp⟩

/-- Raw reading used by the C2 witness. -/
def wr2 : RawReading :=
  { locoid := 1
    ts := 10
    latitude := none
    longitude := none
    sensors := [("temp_motor1_1", 100)] }

/-- FeatureVector the aggregator emits for the C2 witness input. -/
def wfv2 : FeatureVector := aggregateWindow 1 0 [wr2]

/-- Witness for C2: a one-reading window yields `sample_count = 1` and an
undefined std for every present sensor. -/
theorem std_undefined_on_single_sample_witness :
    (wfv2 ∈ featureAggregator 60 1 [wr2] ∧ wfv2.sample_count = 1) ∧
    ∀ s st, (s, some st) ∈ wfv2.stats → st.std = none ∧ st.std ≠ some 0 := by
  have hagg : featureAggregator 60 1 [wr2] = [wfv2] := rfl
  have hmem : wfv2 ∈ featureAggregator 60 1 [wr2] := by
    rw [hagg]
    exact List.mem_singleton.mpr rfl
  exact ⟨⟨hmem, rfl⟩,
    std_undefined_on_single_sample 60 1 [wr2] wfv2 hmem rfl⟩

/-- C9: an emitted window whose `gps_availability` is 0 has null `avg_lat`
and `avg_lon`, and the Geographic view's notna filter excludes every row
with a null coordinate — it renders only rows with both present, instead of
crashing on such rows. -/
theorem gps_unavailable_row_excluded (dur : ℕ) (loco : ℤ)
    (rs : List RawReading) (fv : FeatureVector)
    (hfv : fv ∈ featureAggregator dur loco rs)
    (h0 : fv.gps_availability = 0) :
    (fv.avg_lat = none ∧ fv.avg_lon = none) ∧
    (∀ (rows : List AnomalyRecord) (rec : AnomalyRecord),
      rec.fv = fv → rec ∉ geoFilter rows) ∧
    (∀ (rows : List AnomalyRecord) (rec : AnomalyRecord),
      rec ∈ geoFilter rows → rec.fv.avg_lat.isSome ∧ rec.fv.avg_lon.isSome) := by
  rw [featureAggregator_eq] at hfv
  obtain ⟨w, _, heq⟩ := List.mem_map.mp hfv
  subst heq
  obtain ⟨hlat, hlon⟩ := aggregateWindow_gps_zero h0
  refine ⟨⟨hlat, hlon⟩, ?_, ?_⟩
  · intro rows rec hrec hmem
    have hpred := (List.mem_filter.mp hmem).2
    rw [hrec, hlat] at hpred
    simp at hpred
  · intro rows rec hmem
    have hpred := (List.mem_filter.mp hmem).2
    rw [Bool.and_eq_true] at hpred
    exact ⟨hpred.1, hpred.2⟩

/-- Raw reading used by the C9 witness: no GPS fix at all. -/
def wr9 : RawReading :=
  { locoid := 2
    ts := 5
    latitude := none
    longitude := none
    sensors := [("speed", 80)] }

/-- FeatureVector the aggregator emits for the C9 witness input. -/
def wfv9 : FeatureVector := aggregateWindow 2 0 [wr9]

/-- Witness for C9: a window with no GPS fix has availability 0, null
coordinates, and its row is excluded by the Geographic filter. -/
theorem gps_unavailable_row_excluded_witness :
    (wfv9 ∈ featureAggregator 60 2 [wr9] ∧ wfv9.gps_availability = 0) ∧
    ((wfv9.avg_lat = none ∧ wfv9.avg_lon = none) ∧
     (∀ (rows : List AnomalyRecord) (rec : AnomalyRecord),
       rec.fv = wfv9 → rec ∉ geoFilter rows) ∧
     (∀ (rows : List AnomalyRecord) (rec : AnomalyRecord),
       rec ∈ geoFilter rows → rec.fv.avg_lat.isSome ∧ rec.fv.avg_lon.isSome)) := by
  have hagg : featureAggregator 60 2 [wr9] = [wfv9] := rfl
  have hmem : wfv9 ∈ featureAggregator 60 2 [wr9] := by
    rw [hagg]
    exact List.mem_singleton.mpr rfl
  have hfix : gpsFixes [wr9] = [] := rfl
  have h0 : wfv9.gps_availability = 0 := by
    show ((gpsFixes [wr9]).length : ℚ) / (GPS_EXPECTED : ℚ) = 0
    rw [hfix]
    norm_num
  exact ⟨⟨hmem, h0⟩, gps_unavailable_row_excluded 60 2 [wr9] wfv9 hmem h0⟩

/-- C4: the Feature Aggregator is insensitive to the arrival order of the
raw readings — any permutation of the input yields identical FeatureVectors
per window — and the emitted windows are ordered strictly ascending by
window start time. -/
theorem aggregator_ignores_input_order (dur : ℕ) (loco : ℤ)
    (rs1 rs2 : List RawReading) (hp : rs1.Perm rs2) :
    featureAggregator dur loco rs1 = featureAggregator dur loco rs2 ∧
    ((featureAggregator dur loco rs1).map FeatureVector.ts).Pairwise (· < ·) := by
  have hf : (rs1.filter (fun r => r.locoid == loco)).Perm
      (rs2.filter (fun r => r.locoid == loco)) := hp.filter _
  constructor
  · rw [featureAggregator_eq, featureAggregator_eq, windowStarts_perm dur hf]
    exact List.map_congr_left
      (fun w _ => aggregateWindow_perm loco w (hf.filter _))
  · rw [featureAggregator_eq, List.map_map]
    have hcomp : (FeatureVector.ts ∘ fun w => aggregateWindow loco w
        ((rs1.filter (fun r => r.locoid == loco)).filter
          (fun r => windowOf dur r == w))) = id := funext (fun w => rfl)
    rw [hcomp, List.map_id]
    unfold windowStarts
    exact (List.pairwise_lt_range _).filter _

/-- First raw reading of the C4 witness (window start 0). -/
def wra : RawReading :=
  { locoid := 3
    ts := 10
    latitude := none
    longitude := none
    sensors := [("speed", 50)] }

/-- Second raw reading of the C4 witness (window start 60). -/
def wrb : RawReading :=
  { locoid := 3
    ts := 70
    latitude := none
    longitude := none
    sensors := [("speed", 60)] }

/-- Witness for C4: swapping two readings leaves the emitted windows
identical, and their start times ascend. -/
theorem aggregator_ignores_input_order_witness :
    [wra, wrb].Perm [wrb, wra] ∧
    (featureAggregator 60 3 [wra, wrb] = featureAggregator 60 3 [wrb, wra] ∧
     ((featureAggregator 60 3 [wra, wrb]).map FeatureVector.ts).Pairwise
       (· < ·)) :=
  ⟨List.Perm.swap wrb wra [],
   aggregator_ignores_input_order 60 3 [wra, wrb] [wrb, wra]
     (List.Perm.swap wrb wra [])⟩

end Loco
